import Mathlib

/-!
Verification development for the Elyx event-system core
(src/elyx_event_system: state.py, utils.py, orchestrator.py, agents/member.py).

The Python data model (TypedDict state passed by mutable reference) is embedded
as immutable Lean structures with explicit state passing: every Python function
that mutates the state dict becomes a Lean function returning the new state
(paired with its Python return value where one exists).

Modelling conventions, used throughout:
- datetime values are rational numbers of minutes since 2024-12-30 00:00
  (the Monday of week 1 used by calculate_conversation_timestamp); the
  ISO-string round-trip (isoformat / fromisoformat) performed by the code on
  timestamps it wrote itself always succeeds, so it is the identity here.
- random.randint / random.uniform draws and uuid4 suffixes are injected
  explicitly (AppendRand, Env); theorems hypothesise exactly the ranges the
  corresponding random calls guarantee.
- datetime.now().isoformat() strings (created_at, updated_at, ...) are the
  injected Env.now; no claim depends on their value.
- dict .get with a default on a possibly-missing key is an Option field read
  with getD; keys the code always writes (initialization.py) are plain fields.
- Dict[str, Any] payloads that only flow through (ChatMsg.meta, EventObj.meta,
  outcome_metrics) are association lists of strings.
-/

namespace Elyx

/-- Simulation counters inside member_state. initialization / checkpointing
always store both keys, so they are plain fields; the dict .get default 0 in
should_schedule_diagnostic reads the field directly. -/
structure SimCounters where
  weeks_since_last_trip : Int
  weeks_since_last_diagnostic : Int
deriving DecidableEq, Repr

/-- The member_state dict (Dict[str, Any]): the fields the core reads. The
simulation_counters key is guarded by membership tests in the code, hence an
Option. -/
structure MemberState where
  name : Option String
  simulation_counters : Option SimCounters
deriving DecidableEq, Repr

/-- ChatMsg from state.py. timestamp is minutes since 2024-12-30 00:00. -/
structure ChatMsg where
  role : String
  agent : Option String
  text : String
  msg_id : String
  timestamp : Rat
  event_id : Option String
  meta : List (String × String)
deriving DecidableEq, Repr

/-- EventObj from state.py. The dict key named Type is embedded as the field
event_type (Type is a Lean keyword). -/
structure EventObj where
  event_id : String
  event_type : String
  description : String
  reason : String
  priority : String
  status : String
  created_by : String
  created_at : String
  meta : List (String × String)
deriving DecidableEq, Repr

/-- AgentOutput from state.py (TypedDict, total=False) plus the extra
decision-signal keys (analysis, recommendations, medications, tests,
confidence) that agent payloads carry at runtime and that
detect_decision_point reads. A key that is absent is None / the falsy
default: list-valued keys are embedded as plain lists (absent = empty, both
falsy in Python), the rest as Options. -/
structure AgentOutput where
  agent : Option String
  message : String
  expert_needed : Option String
  analysis : Option String
  recommendations : List String
  medications : List String
  tests : List String
  confidence : Option Rat
deriving DecidableEq, Repr

/-- AgentAnalysis from state.py. -/
structure AgentAnalysis where
  agent_name : String
  analysis_type : String
  key_findings : List String
  confidence_level : Rat
  recommendations : List String
  concerns : List String
  timestamp : String
deriving DecidableEq, Repr

/-- DecisionEvidence from state.py. -/
structure DecisionEvidence where
  evidence_type : String
  source : String
  description : String
  confidence : Rat
  timestamp : String
  relevance_score : Rat
deriving DecidableEq, Repr

/-- RiskAssessment from state.py. -/
structure RiskAssessment where
  risk_factor : String
  risk_level : String
  probability : Rat
  impact_severity : String
  mitigation_strategy : Option String
  notes : Option String
deriving DecidableEq, Repr

/-- DecisionChain from state.py. -/
structure DecisionChain where
  decision_id : String
  triggering_event : String
  member_id : String
  week_index : Int
  priority : String
  status : String
  agent_analyses : List AgentAnalysis
  evidence_considered : List DecisionEvidence
  risk_assessments : List RiskAssessment
  final_decision : String
  decision_rationale : String
  decision_maker : String
  decision_timestamp : String
  implementation_status : String
  outcome_metrics : List (String × String)
  outcome_summary : Option String
  follow_up_required : Bool
  next_review_date : Option String
  created_at : String
  updated_at : String
  tags : List String
deriving DecidableEq, Repr, Inhabited

/-- ConversationalState from state.py. All keys are created by
create_initial_conversational_state, so they are plain fields. -/
structure ConvState where
  message : String
  chat_history : List ChatMsg
  member_state : MemberState
  week_index : Int
  thread_index : Int
  message_in_thread : Nat
  pending_agents : List String
  current_agent : Option String
  member_decision : Option String
  active_events : List EventObj
  completed_events : List EventObj
  agent_responses : List AgentOutput
  new_thread_required : Option Bool
  active_decision_chains : List DecisionChain
  completed_decision_chains : List DecisionChain
  current_decision_context : Option DecisionChain
deriving DecidableEq, Repr

/-- Injected environment for one call: the datetime.now().isoformat() string
and the uuid4-derived fresh suffix the call would draw. -/
structure Env where
  now : String
  uuid : String
deriving DecidableEq, Repr

/-- Randomness drawn by one append_message call: dh = random.randint(0, 1)
hours, dm = random.randint(2, 30) minutes, hv = random.uniform(-1, 1) hour
jitter and mj = random.uniform(-1, 2) minute jitter used on the
calculate_conversation_timestamp path, and the uuid4 message id. -/
structure AppendRand where
  dh : Int
  dm : Int
  hv : Rat
  mj : Rat
  msg_id : String
deriving DecidableEq, Repr

/-- Python truthiness of an optional string: None and the empty string are
falsy. -/
def truthyStr : Option String → Bool
  | none => false
  | some t => !t.isEmpty

/-- Splits a list at the first element satisfying p, like the Python pattern
of iterating a list, mutating the first match and possibly removing it
(list.remove removes the first equal element, which is that very match since
earlier elements fail p). -/
def extractFirst (p : α → Bool) : List α → Option (List α × α × List α)
  | [] => none
  | x :: xs =>
    if p x then some ([], x, xs)
    else
      match extractFirst p xs with
      | some (pre, y, suf) => some (x :: pre, y, suf)
      | none => none

/-- calculate_conversation_timestamp from utils.py, in minutes since
2024-12-30 00:00. base_week_start is Monday 2024-12-30 at 10:00, i.e. 600
minutes. thread_day always falls exactly on a 10:00 instant (the base plus
whole weeks and days), so thread_day.replace(hour=base_hour) is the day start
plus 60 * base_hour. hour_variation is random.uniform(-1, 1), minute_jitter
is random.uniform(-1, 2); the code computes
message_in_thread * (3 + minute_jitter) minutes. The hour_offsets list is
indexed with thread_index - 1 for 1 <= thread_index <= 5 (callers use
1-based thread indices; Python negative-index wraparound is outside the
model). -/
def calculate_conversation_timestamp (week_index thread_index : Int)
    (message_in_thread : Nat) (hour_variation minute_jitter : Rat) : Rat :=
  let current_week_start : Rat := 600 + 10080 * ((week_index : Rat) - 1)
  let thread_day : Rat := current_week_start + 1440 * ((thread_index : Rat) - 1)
  let hour_offsets : List Int := [10, 14, 16, 11, 15]
  let base_hour : Int :=
    if 1 ≤ thread_index ∧ thread_index ≤ 5 then
      hour_offsets.getD (thread_index - 1).toNat 10
    else 10
  let thread_start : Rat := (thread_day - 600) + 60 * (base_hour : Rat) + 60 * hour_variation
  thread_start + (message_in_thread : Rat) * (3 + minute_jitter)

/-- append_message from utils.py. When the chat history is non-empty and
message_in_thread > 0, the new timestamp is the previous message timestamp
plus random.randint(0, 1) hours and random.randint(2, 30) minutes; otherwise
it is the calculated thread-start timestamp. The ValueError / empty-string
fallbacks for the stored ISO timestamp never fire on timestamps this code
wrote (isoformat always parses back), so they do not appear in the numeric
model. The thread message counter is incremented as a side effect. -/
def append_message (s : ConvState) (role : String) (agent : Option String)
    (text : String) (meta : List (String × String)) (event_id : Option String)
    (r : AppendRand) : ConvState :=
  let timestamp : Rat :=
    match s.chat_history.getLast? with
    | some last =>
      if s.message_in_thread > 0 then
        last.timestamp + 60 * (r.dh : Rat) + (r.dm : Rat)
      else
        calculate_conversation_timestamp s.week_index s.thread_index s.message_in_thread r.hv r.mj
    | none =>
      calculate_conversation_timestamp s.week_index s.thread_index s.message_in_thread r.hv r.mj
  let msg : ChatMsg :=
    { role := role, agent := agent, text := text, msg_id := r.msg_id,
      timestamp := timestamp, event_id := event_id, meta := meta }
  { s with chat_history := s.chat_history ++ [msg],
           message_in_thread := s.message_in_thread + 1 }

/-- generate_event_id from utils.py: W{week}T{thread}_{type}_{uuid-suffix}. -/
def generate_event_id (week_index thread_index : Int) (event_type : String)
    (uuid : String) : String :=
  "W" ++ toString week_index ++ "T" ++ toString thread_index ++ "_" ++ event_type ++ "_" ++ uuid

/-- create_event from utils.py: builds the event with status proposed and
appends it to active_events; returns the generated event id. -/
def create_event (env : Env) (s : ConvState) (event_type description reason
    priority created_by : String) (meta : List (String × String)) :
    String × ConvState :=
  let event_id := generate_event_id s.week_index s.thread_index event_type env.uuid
  let event : EventObj :=
    { event_id := event_id, event_type := event_type, description := description,
      reason := reason, priority := priority, status := "proposed",
      created_by := created_by, created_at := env.now, meta := meta }
  (event_id, { s with active_events := s.active_events ++ [event] })

/-- update_event_status from utils.py: finds the first active event with the
given id; returns false leaving the state unchanged if none exists. On a
match it sets the new status, and if the new status is completed or
cancelled it removes the event from active_events and appends it to
completed_events; otherwise the status is updated in place. -/
def update_event_status (s : ConvState) (event_id new_status : String) :
    Bool × ConvState :=
  match extractFirst (fun e => e.event_id == event_id) s.active_events with
  | none => (false, s)
  | some (pre, e, suf) =>
    let updated : EventObj := { e with status := new_status }
    if new_status = "completed" ∨ new_status = "cancelled" then
      (true, { s with active_events := pre ++ suf,
                      completed_events := s.completed_events ++ [updated] })
    else
      (true, { s with active_events := pre ++ [updated] ++ suf })

/-- create_decision_chain from utils.py: builds a fresh pending chain with id
DC_W{week}_{uuid-suffix}, appends it to active_decision_chains and makes it
the current_decision_context; returns the decision id. -/
def create_decision_chain (env : Env) (s : ConvState)
    (triggering_event member_id priority : String) : String × ConvState :=
  let decision_id := "DC_W" ++ toString s.week_index ++ "_" ++ env.uuid
  let chain : DecisionChain :=
    { decision_id := decision_id, triggering_event := triggering_event,
      member_id := member_id, week_index := s.week_index, priority := priority,
      status := "pending", agent_analyses := [], evidence_considered := [],
      risk_assessments := [], final_decision := "", decision_rationale := "",
      decision_maker := "", decision_timestamp := "",
      implementation_status := "not_started", outcome_metrics := [],
      outcome_summary := none, follow_up_required := false,
      next_review_date := none, created_at := env.now, updated_at := env.now,
      tags := [] }
  (decision_id,
   { s with active_decision_chains := s.active_decision_chains ++ [chain],
            current_decision_context := some chain })

/-- Re-syncs current_decision_context with an updated chain when it points at
the same decision id (the trailing block shared by the chain-mutating
functions in utils.py). -/
def syncContext (s : ConvState) (decision_id : String) (chain : DecisionChain) :
    Option DecisionChain :=
  match s.current_decision_context with
  | some ctx => if ctx.decision_id == decision_id then some chain else s.current_decision_context
  | none => none

/-- add_agent_analysis from utils.py: appends the analysis to the first
active chain with the given id and returns true; returns false leaving the
state unchanged when no active chain has that id. Note that this function
itself appends unconditionally: it contains no check against a previous
analysis by the same agent. -/
def add_agent_analysis (env : Env) (s : ConvState) (decision_id agent_name
    analysis_type : String) (key_findings : List String)
    (confidence_level : Rat) (recommendations concerns : List String) :
    Bool × ConvState :=
  match extractFirst (fun c => c.decision_id == decision_id) s.active_decision_chains with
  | none => (false, s)
  | some (pre, c, suf) =>
    let analysis : AgentAnalysis :=
      { agent_name := agent_name, analysis_type := analysis_type,
        key_findings := key_findings, confidence_level := confidence_level,
        recommendations := recommendations, concerns := concerns,
        timestamp := env.now }
    let updated : DecisionChain :=
      { c with agent_analyses := c.agent_analyses ++ [analysis], updated_at := env.now }
    (true, { s with active_decision_chains := pre ++ [updated] ++ suf,
                    current_decision_context := syncContext s decision_id updated })

/-- finalize_decision from utils.py: records the final decision, rationale,
maker and timestamp on the first active chain with the given id and moves its
status to implemented; the chain stays in active_decision_chains. Returns
false leaving the state unchanged when no active chain has that id. -/
def finalize_decision (env : Env) (s : ConvState) (decision_id final_decision
    decision_rationale decision_maker : String) : Bool × ConvState :=
  match extractFirst (fun c => c.decision_id == decision_id) s.active_decision_chains with
  | none => (false, s)
  | some (pre, c, suf) =>
    let updated : DecisionChain :=
      { c with final_decision := final_decision,
               decision_rationale := decision_rationale,
               decision_maker := decision_maker,
               decision_timestamp := env.now,
               status := "implemented", updated_at := env.now }
    (true, { s with active_decision_chains := pre ++ [updated] ++ suf,
                    current_decision_context := syncContext s decision_id updated })

/-- track_outcome from utils.py: records the outcome on the first active
chain with the given id, moves its status to completed, removes it from
active_decision_chains, appends it to completed_decision_chains, and clears
current_decision_context when it pointed at that id. Returns false leaving
the state unchanged when no active chain has that id. -/
def track_outcome (env : Env) (s : ConvState) (decision_id : String)
    (outcome_metrics : List (String × String)) (outcome_summary : String)
    (follow_up_required : Bool) (next_review_date : Option String) :
    Bool × ConvState :=
  match extractFirst (fun c => c.decision_id == decision_id) s.active_decision_chains with
  | none => (false, s)
  | some (pre, c, suf) =>
    let updated : DecisionChain :=
      { c with outcome_metrics := outcome_metrics,
               outcome_summary := some outcome_summary,
               follow_up_required := follow_up_required,
               next_review_date := next_review_date,
               implementation_status := "completed",
               status := "completed", updated_at := env.now }
    (true,
     { s with active_decision_chains := pre ++ suf,
              completed_decision_chains := s.completed_decision_chains ++ [updated],
              current_decision_context :=
                match s.current_decision_context with
                | some ctx => if ctx.decision_id == decision_id then none else some ctx
                | none => none })

/-- AGENT_KEYS from agents/__init__.py. -/
def AGENT_KEYS : List String :=
  ["Ruby", "DrWarren", "Advik", "Carla", "Rachel", "Neel", "TestPanel"]

/-- AGENT_NODE_MAP from agents/__init__.py. -/
def AGENT_NODE_MAP : List (String × String) :=
  [("Ruby", "RubyNode"), ("DrWarren", "DrWarrenNode"), ("Advik", "AdvikNode"),
   ("Carla", "CarlaNode"), ("Rachel", "RachelNode"), ("Neel", "NeelNode"),
   ("TestPanel", "TestPanelNode")]

/-- should_schedule_diagnostic from orchestrator.py: false when member_state
has no simulation_counters key, otherwise weeks_since_last_diagnostic >= 12. -/
def should_schedule_diagnostic (s : ConvState) : Bool :=
  match s.member_state.simulation_counters with
  | none => false
  | some counters => counters.weeks_since_last_diagnostic ≥ 12

/-- create_diagnostic_event from orchestrator.py: creates the High-priority
Diagnostic event and resets weeks_since_last_diagnostic to 0 when the
counters exist; returns the event id. -/
def create_diagnostic_event (env : Env) (s : ConvState) : String × ConvState :=
  let (event_id, s1) := create_event env s "Diagnostic"
    "Comprehensive Health Assessment - 12-week diagnostic panel including blood tests, cardiovascular assessment, body composition, and specialized screenings"
    "Scheduled diagnostic testing due every 12 weeks" "High" "System" []
  let s2 :=
    match s1.member_state.simulation_counters with
    | some counters =>
      let counters2 := { counters with weeks_since_last_diagnostic := (0 : Int) }
      let ms := { s1.member_state with simulation_counters := some counters2 }
      { s1 with member_state := ms }
    | none => s1
  (event_id, s2)

/-- detect_decision_point from orchestrator.py: false with no agent
responses; otherwise at least two of the four indicators on the last
response, where the analysis indicator also requires confidence > 0.5 (the
confidence default when the key is absent is 0). -/
def detect_decision_point (s : ConvState) : Bool :=
  match s.agent_responses.getLast? with
  | none => false
  | some last =>
    let has_recommendations := !last.recommendations.isEmpty
    let has_medications := !last.medications.isEmpty
    let has_tests := !last.tests.isEmpty
    let has_analysis := truthyStr last.analysis
    let has_confidence := last.confidence.getD 0 > mkRat 1 2
    has_recommendations.toNat + has_medications.toNat + has_tests.toNat
      + (has_analysis && has_confidence).toNat ≥ 2

/-- Analysis-type selection inside decide_next_node in orchestrator.py. -/
def analysis_type_for (agent_name : String) : String :=
  if agent_name = "DrWarren" then "clinical_analysis"
  else if agent_name = "Carla" then "nutritional_analysis"
  else if agent_name = "Rachel" then "exercise_analysis"
  else if agent_name = "Advik" then "data_analysis"
  else "general_analysis"

/-- The decision-tracking block of decide_next_node in orchestrator.py
(lines 119-172). When a decision point is detected: create a chain if no
chain is active (the local active_chains list aliases the state list, so the
freshly appended chain is visible right after creation), then add the last
responding agent's analysis to active_chains[0] unless that agent already has
an analysis in it. -/
def decision_tracking_step (env : Env) (s : ConvState) : ConvState :=
  if detect_decision_point s then
    match s.agent_responses.getLast? with
    | none => s
    | some last =>
      let agent_name := last.agent.getD "Unknown"
      let s1 :=
        if s.active_decision_chains.isEmpty then
          let member_id := s.member_state.name.getD "Unknown"
          let triggering_event := agent_name ++ " made recommendations/decisions"
          (create_decision_chain env s triggering_event member_id "Medium").2
        else s
      match s1.active_decision_chains.head? with
      | none => s1
      | some current_chain =>
        if current_chain.agent_analyses.any (fun a => a.agent_name == agent_name) then s1
        else
          let key_findings := if truthyStr last.analysis then [last.analysis.getD ""] else []
          (add_agent_analysis env s1 current_chain.decision_id agent_name
            (analysis_type_for agent_name) key_findings
            (last.confidence.getD (mkRat 7 10)) last.recommendations
            (last.medications ++ last.tests)).2
  else s

/-- decide_next_node from orchestrator.py. The routing collaborator (the LLM
invocation producing the stripped, quote-free decision string) is injected as
reply, with none standing for a raised exception. Priority order as in the
code: the member END_TURN check, the diagnostic cadence check (which creates
the diagnostic event and routes to TestPanelNode without consulting the
collaborator), the decision-tracking block, then dispatch on the
collaborator reply inside the try block. On the END reply with a non-empty
active_decision_chains list, the code calls
finalize_decision(state, decision_id, "Conversation ended", "Conversation ended")
with four arguments while finalize_decision requires five
(decision_maker has no default), so Python raises TypeError before any chain
is touched; the surrounding except handler catches it and returns Member.
Exceptions and unrecognized replies fall back to Member. -/
def decide_next_node (env : Env) (s : ConvState) (reply : Option String) :
    ConvState × String :=
  if s.member_decision == some "END_TURN" then (s, "END")
  else if should_schedule_diagnostic s then
    ((create_diagnostic_event env s).2, "TestPanelNode")
  else
    let s2 := decision_tracking_step env s
    match reply with
    | none => (s2, "Member")
    | some decision =>
      if decision = "END" then
        if s2.active_decision_chains.isEmpty then (s2, "END")
        else (s2, "Member")
      else if decision = "Member" then (s2, "Member")
      else if AGENT_KEYS.contains decision then
        (s2, (AGENT_NODE_MAP.lookup decision).getD "Member")
      else (s2, "Member")

/-- end_conversation_node from orchestrator.py: requires a new thread,
increments both simulation counters when present, and finalizes every active
decision chain with the conversation-ended rationale (this call site passes
all five finalize_decision arguments). -/
def end_conversation_node (env : Env) (s : ConvState) : ConvState :=
  let s1 := { s with new_thread_required := some true }
  let s2 :=
    match s1.member_state.simulation_counters with
    | some counters =>
      let counters2 :=
        { counters with
          weeks_since_last_trip := counters.weeks_since_last_trip + 1,
          weeks_since_last_diagnostic := counters.weeks_since_last_diagnostic + 1 }
      let ms := { s1.member_state with simulation_counters := some counters2 }
      { s1 with member_state := ms }
    | none => s1
  (s2.active_decision_chains.map DecisionChain.decision_id).foldl
    (fun st id =>
      (finalize_decision env st id "Conversation thread ended"
        "Decision chain completed with conversation" "System").2)
    s2

/-- The JSON payload member_node tries to parse from the member-simulation
collaborator output. -/
structure MemberPayload where
  message : Option String
  decision : Option String
  is_travel_related : Bool
deriving DecidableEq, Repr

/-- member_node from agents/member.py. content is the raw collaborator
output; parsed is some payload when json.loads succeeds and none when it
raises (the except Exception branch then uses the raw content as the message
and END_TURN as the decision). The node resets the new_thread_required flag
when it initiated a new thread, resets weeks_since_last_trip on a
travel-related payload, stores the message, appends the member message to
the chat history with the decision in its meta map, and records
member_decision. -/
def member_node (s : ConvState) (parsed : Option MemberPayload)
    (content : String) (r : AppendRand) : ConvState :=
  let s0 :=
    if s.chat_history.isEmpty then s
    else if s.new_thread_required.getD false then { s with new_thread_required := some false }
    else s
  let step :=
    match parsed with
    | some payload =>
      let message_text := payload.message.getD "Sorry, I\x27m not sure what to say."
      let decision := payload.decision.getD "END_TURN"
      let s1 :=
        if payload.is_travel_related then
          match s0.member_state.simulation_counters with
          | some counters =>
            let counters2 := { counters with weeks_since_last_trip := (0 : Int) }
            let ms := { s0.member_state with simulation_counters := some counters2 }
            { s0 with member_state := ms }
          | none => s0
        else s0
      (message_text, decision, s1)
    | none => (content, "END_TURN", s0)
  let message_text := step.1
  let decision := step.2.1
  let s1 := step.2.2
  let s2 := { s1 with message := message_text }
  let s3 := append_message s2 "member" (some "member") message_text
    [("decision", decision)] none r
  { s3 with member_decision := some decision }

/-- Event-registry operations for lifecycle reasoning: the create and
transition calls of utils.py. A create op carries the Env whose uuid feeds
generate_event_id. -/
inductive EventOp where
  | create (env : Env) (event_type description reason priority created_by : String)
      (meta : List (String × String))
  | transition (event_id new_status : String)
deriving DecidableEq, Repr

/-- Runs one event-registry operation. -/
def stepEventOp (s : ConvState) : EventOp → ConvState
  | .create env t d r p c m => (create_event env s t d r p c m).2
  | .transition id st => (update_event_status s id st).2

/-- Runs a sequence of event-registry operations. -/
def runEventOps (s : ConvState) (ops : List EventOp) : ConvState :=
  ops.foldl stepEventOp s

/-- Ids of the active events. -/
def activeEventIds (s : ConvState) : List String :=
  s.active_events.map EventObj.event_id

/-- Ids of the completed events. -/
def completedEventIds (s : ConvState) : List String :=
  s.completed_events.map EventObj.event_id

/-- Ids of all events, active first. -/
def eventIds (s : ConvState) : List String :=
  activeEventIds s ++ completedEventIds s

/-- Event-lifecycle invariant: no event id occurs twice across the active and
completed collections, so each id lives in exactly one of them. -/
def EventInv (s : ConvState) : Prop :=
  (eventIds s).Nodup

/-- Uuid-freshness of a sequence of event operations: each create op draws a
uuid whose generated id is not already present (what uuid4 delivers in
practice). -/
def FreshEventOps (s : ConvState) : List EventOp → Prop
  | [] => True
  | op :: ops =>
    (match op with
     | .create env t _ _ _ _ _ =>
       generate_event_id s.week_index s.thread_index t env.uuid ∉ eventIds s
     | .transition _ _ => True)
    ∧ FreshEventOps (stepEventOp s op) ops

/-- One append_message call with all its arguments. -/
structure MsgReq where
  role : String
  agent : Option String
  text : String
  meta : List (String × String)
  event_id : Option String
  rand : AppendRand
deriving DecidableEq, Repr

/-- Applies one append_message call. -/
def applyAppend (s : ConvState) (q : MsgReq) : ConvState :=
  append_message s q.role q.agent q.text q.meta q.event_id q.rand

/-- Applies a sequence of append_message calls. -/
def runAppends (s : ConvState) (qs : List MsgReq) : ConvState :=
  qs.foldl applyAppend s

/-- The ranges random.randint(0, 1) and random.randint(2, 30) guarantee for
the per-message deltas in append_message. -/
def ValidRand (r : AppendRand) : Prop :=
  0 ≤ r.dh ∧ r.dh ≤ 1 ∧ 2 ≤ r.dm ∧ r.dm ≤ 30

/-- A sample environment for concrete evaluations. -/
def env0 : Env := { now := "2025-01-06T10:00:00", uuid := "a1b2c3d4" }

/-- Sample simulation counters. -/
def baseCounters : SimCounters :=
  { weeks_since_last_trip := 0, weeks_since_last_diagnostic := 0 }

/-- Sample member state. -/
def baseMember : MemberState :=
  { name := some "Rohan Patel", simulation_counters := some baseCounters }

/-- A well-formed initial-like conversational state (the shape produced by
create_initial_conversational_state, mid-conversation). -/
def baseState : ConvState :=
  { message := "", chat_history := [], member_state := baseMember,
    week_index := 1, thread_index := 1, message_in_thread := 0,
    pending_agents := [], current_agent := none,
    member_decision := some "CONTINUE_CONVERSATION",
    active_events := [], completed_events := [], agent_responses := [],
    new_thread_required := none, active_decision_chains := [],
    completed_decision_chains := [], current_decision_context := none }

/-- An agent response with every optional decision signal absent. -/
def emptyAgentOutput : AgentOutput :=
  { agent := none, message := "", expert_needed := none, analysis := none,
    recommendations := [], medications := [], tests := [], confidence := none }

/-- A chat message with the given role, agent, text and timestamp. -/
def sampleMsg (role : String) (agent : Option String) (text : String)
    (ts : Rat) : ChatMsg :=
  { role := role, agent := agent, text := text, msg_id := "m0",
    timestamp := ts, event_id := none, meta := [] }

/-- Chain creation for the add_agent_analysis double-call experiment. -/
def c1_create : String × ConvState :=
  create_decision_chain env0 baseState "DrWarren made recommendations/decisions"
    "Rohan Patel" "Medium"

/-- State after the first add_agent_analysis call for (chain, DrWarren). -/
def c1_after_first : ConvState :=
  (add_agent_analysis env0 c1_create.2 c1_create.1 "DrWarren" "clinical_analysis"
    ["Elevated fasting glucose"] (mkRat 85 100) ["Implement nutrition protocol"] []).2

/-- State after the second, identical add_agent_analysis call. -/
def c1_after_second : ConvState :=
  (add_agent_analysis env0 c1_after_first c1_create.1 "DrWarren" "clinical_analysis"
    ["Elevated fasting glucose"] (mkRat 85 100) ["Implement nutrition protocol"] []).2

/-- A decision-worthy last response by DrWarren. -/
def c1w_last : AgentOutput :=
  { emptyAgentOutput with
    agent := some "DrWarren",
    recommendations := ["Implement nutrition protocol"],
    tests := ["Follow-up fasting glucose"] }

/-- The single active chain after DrWarren's analysis was recorded. -/
def c1w_chain : DecisionChain := c1_after_first.active_decision_chains.headI

/-- State in which DrWarren already has an analysis in the active chain and
is again the last responder. -/
def c1w_state : ConvState :=
  { c1_after_first with agent_responses := [c1w_last] }

/-- State with one active (pending) decision chain and no agent responses. -/
def c2_state : ConvState := c1_create.2

/-- Last response carrying an explicit handoff to Carla. -/
def c3_last : AgentOutput :=
  { emptyAgentOutput with agent := some "DrWarren", expert_needed := some "Carla" }

/-- State whose most recent AgentResponse names Carla via expert_needed and
whose last message was authored by the specialist dr_warren. -/
def c3_state : ConvState :=
  { baseState with
    chat_history := [sampleMsg "member" (some "member") "I have a question" 600,
                     sampleMsg "dr_warren" (some "DrWarren") "Here is my answer" 610],
    agent_responses := [c3_last] }

/-- State whose last message was authored by the specialist dr_warren, with
no handoff directive. -/
def c4_state : ConvState :=
  { baseState with
    chat_history := [sampleMsg "member" (some "member") "How did my labs look" 600,
                     sampleMsg "dr_warren" (some "DrWarren") "Your labs look stable" 612] }

/-- A response with only recommendations (one decision indicator). -/
def c5_only_recs : AgentOutput :=
  { emptyAgentOutput with agent := some "Carla", recommendations := ["x"] }

/-- State whose last response carries only recommendations. -/
def c5a_state : ConvState := { baseState with agent_responses := [c5_only_recs] }

/-- A response with recommendations plus tests (two decision indicators). -/
def c5_recs_tests : AgentOutput :=
  { emptyAgentOutput with
    agent := some "Carla", recommendations := ["x"], tests := ["y"] }

/-- State whose last response carries recommendations and tests, with no
active chain. -/
def c5b_state : ConvState := { baseState with agent_responses := [c5_recs_tests] }

/-- State whose diagnostic counter reached the 12-week cadence threshold. -/
def c6_counters : SimCounters :=
  { weeks_since_last_trip := 3, weeks_since_last_diagnostic := 12 }

/-- Member state at the cadence threshold. -/
def c6_member : MemberState :=
  { baseMember with simulation_counters := some c6_counters }

/-- State at the diagnostic cadence threshold. -/
def c6_state : ConvState :=
  { baseState with member_state := c6_member }

/-- State at the diagnostic cadence threshold whose member also ended the
turn. -/
def c6_end_state : ConvState :=
  { c6_state with member_decision := some "END_TURN" }

/-- State with one active decision chain, for outcome tracking. -/
def c7_state : ConvState :=
  (create_decision_chain env0 baseState "Carla made recommendations/decisions"
    "Rohan Patel" "Medium").2

/-- The id create_event generates for a Diagnostic event of week 1, thread 1
with the sample uuid suffix. -/
def c8_id : String := generate_event_id 1 1 "Diagnostic" "a1b2c3d4"

/-- State holding one freshly proposed event. -/
def c8_state1 : ConvState :=
  (create_event env0 baseState "Diagnostic" "desc" "reason" "High" "System" []).2

/-- State after a non-terminal transition of that event to scheduled. -/
def c8_state2 : ConvState := (update_event_status c8_state1 c8_id "scheduled").2

/-- A create / schedule / complete op sequence on the event registry. -/
def c8_ops : List EventOp :=
  [EventOp.create env0 "Diagnostic" "desc" "reason" "High" "System" [],
   EventOp.transition c8_id "scheduled",
   EventOp.transition c8_id "completed"]

/-- Randomness for a first in-thread delta: 0 hours, 2 minutes. -/
def c9_rand1 : AppendRand := { dh := 0, dm := 2, hv := 0, mj := 0, msg_id := "m1" }

/-- Randomness for a second in-thread delta: 1 hour, 30 minutes. -/
def c9_rand2 : AppendRand := { dh := 1, dm := 30, hv := 0, mj := 0, msg_id := "m2" }

/-- A three-message thread: a member opener and two replies. -/
def c9_qs : List MsgReq :=
  [{ role := "member", agent := some "member", text := "hi", meta := [],
     event_id := none,
     rand := { dh := 0, dm := 2, hv := 0, mj := 0, msg_id := "m0" } },
   { role := "ruby", agent := some "Ruby", text := "hello", meta := [],
     event_id := none, rand := c9_rand1 },
   { role := "member", agent := some "member", text := "thanks", meta := [],
     event_id := none, rand := c9_rand2 }]

theorem extractFirst_some {α : Type} {p : α → Bool} :
    ∀ {l pre : List α} {x : α} {suf : List α},
      extractFirst p l = some (pre, x, suf) →
      l = pre ++ x :: suf ∧ p x = true ∧ ∀ y ∈ pre, p y = false := by
  intro l
  induction l with
  | nil => intro pre x suf h; simp [extractFirst] at h
  | cons a t ih =>
    intro pre x suf h
    by_cases hpa : p a
    · simp [extractFirst, hpa] at h
      obtain ⟨h1, h2, h3⟩ := h
      subst h1; subst h2; subst h3
      exact ⟨rfl, hpa, by simp⟩
    · simp only [extractFirst, if_neg hpa] at h
      cases hel : extractFirst p t with
      | none => rw [hel] at h; simp at h
      | some triple =>
        obtain ⟨pre2, y, suf2⟩ := triple
        rw [hel] at h
        simp at h
        obtain ⟨h1, h2, h3⟩ := h
        obtain ⟨ht, hy, hpre⟩ := ih hel
        subst h1; subst h2; subst h3
        refine ⟨by simp [ht], hy, ?_⟩
        intro z hz
        rcases List.mem_cons.mp hz with hz | hz
        · subst hz; simpa using hpa
        · exact hpre z hz

theorem extractFirst_none {α : Type} {p : α → Bool} :
    ∀ {l : List α}, extractFirst p l = none → ∀ x ∈ l, p x = false := by
  intro l
  induction l with
  | nil => intro _ x hx; simp at hx
  | cons a t ih =>
    intro h x hx
    by_cases hpa : p a
    · simp [extractFirst, hpa] at h
    · simp only [extractFirst, if_neg hpa] at h
      cases hel : extractFirst p t with
      | none =>
        rcases List.mem_cons.mp hx with hx | hx
        · subst hx; simpa using hpa
        · exact ih hel x hx
      | some triple => obtain ⟨p2, y, s2⟩ := triple; rw [hel] at h; simp at h

/-- C1 counterexample. The claim says a second add_agent_analysis call with
the same (decision_id, agent_name) is a no-op. On a state holding one active
chain, the first call for (chain, DrWarren) leaves one analysis in the chain
and an identical second call leaves two: add_agent_analysis itself appends
unconditionally, so the lengths after the first and the second call differ. -/
theorem add_agent_analysis_double_call_appends :
    c1_after_first.active_decision_chains.map (fun c => c.agent_analyses.length) = [1]
    ∧ c1_after_second.active_decision_chains.map (fun c => c.agent_analyses.length) = [2]
    ∧ ¬ (c1_after_second.active_decision_chains.map (fun c => c.agent_analyses.length)
        = c1_after_first.active_decision_chains.map (fun c => c.agent_analyses.length)) :=
  ⟨by decide, by decide, by decide⟩

/-- C1 amended. Idempotence is enforced at the call site, not inside
add_agent_analysis: whenever the first active chain already holds an analysis
whose agent_name equals the last responding agent, the decision-tracking step
of decide_next_node changes nothing, so the router never appends a duplicate
analysis for that agent. -/
theorem router_skips_duplicate_agent_analysis (env : Env) (s : ConvState)
    (last : AgentOutput) (c : DecisionChain)
    (h1 : s.agent_responses.getLast? = some last)
    (h2 : s.active_decision_chains.head? = some c)
    (h3 : c.agent_analyses.any (fun a => a.agent_name == last.agent.getD "Unknown") = true) :
    decision_tracking_step env s = s := by
  unfold decision_tracking_step
  by_cases hd : detect_decision_point s
  · have hne : s.active_decision_chains.isEmpty = false := by
      cases hl : s.active_decision_chains with
      | nil => rw [hl] at h2; simp at h2
      | cons _ _ => simp [hl]
    simp [hd, h1, hne, h2, h3]
  · simp [hd]

/-- C1 witness: on a concrete state where DrWarren already has an analysis in
the active chain and is again the last responder, the router step is the
identity. -/
theorem router_skips_duplicate_agent_analysis_witness :
    decision_tracking_step env0 c1w_state = c1w_state :=
  router_skips_duplicate_agent_analysis env0 c1w_state c1w_last c1w_chain
    (by decide) (by decide) (by decide)

/-- C2 code bug, evaluated at the failing input. On a state with one active
(pending) decision chain, a routing-collaborator reply of END makes
decide_next_node return Member, not END, and leaves the chain active,
unfinalized and still pending: the finalize_decision call in the END branch
passes four arguments to a five-parameter function, so Python raises
TypeError and the except handler falls back to Member. -/
theorem end_reply_with_active_chain_returns_member :
    c2_state.active_decision_chains.map DecisionChain.status = ["pending"]
    ∧ decide_next_node env0 c2_state (some "END") = (c2_state, "Member") :=
  ⟨by decide, by decide⟩

/-- C3 counterexample. On a state whose most recent AgentResponse carries
expert_needed = Carla and whose last message was authored by the specialist
dr_warren, a routing-collaborator behaviour that replies Member makes the
router return Member, not Carla: no code path enforces the handoff
directive, so the claimed for-every-collaborator-behaviour property fails. -/
theorem handoff_not_enforced_against_collaborator :
    c3_state.agent_responses.getLast?.map AgentOutput.expert_needed = some (some "Carla")
    ∧ c3_state.chat_history.getLast?.map ChatMsg.role = some "dr_warren"
    ∧ (decide_next_node env0 c3_state (some "Member")).2 = "Member"
    ∧ (decide_next_node env0 c3_state (some "Member")).2 ≠ "Carla"
    ∧ (decide_next_node env0 c3_state (some "Member")).2 ≠ "CarlaNode" :=
  ⟨by decide, by decide, by decide, by decide, by decide⟩

/-- C3 amended. The handoff directive is conveyed to the routing collaborator
only through the prompt context; at the code level the router returns
whatever valid choice the collaborator makes: on any state that is not
ending and not at the diagnostic cadence (in particular the scenario state
with expert_needed = Carla after a dr_warren message), a collaborator reply
of Carla routes to CarlaNode and a reply of Member routes to Member. -/
theorem router_follows_collaborator_on_handoff (env : Env) (s : ConvState)
    (h1 : ¬ s.member_decision = some "END_TURN")
    (h2 : should_schedule_diagnostic s = false) :
    (decide_next_node env s (some "Carla")).2 = "CarlaNode"
    ∧ (decide_next_node env s (some "Member")).2 = "Member" := by
  have h1b : (s.member_decision == some "END_TURN") = false := by
    simpa using h1
  unfold decide_next_node
  simp [h1b, h2, AGENT_KEYS, AGENT_NODE_MAP]
  decide

/-- C3 witness: at the scenario state, the collaborator replies drive the
routing result. -/
theorem router_follows_collaborator_on_handoff_witness :
    (decide_next_node env0 c3_state (some "Carla")).2 = "CarlaNode"
    ∧ (decide_next_node env0 c3_state (some "Member")).2 = "Member" :=
  router_follows_collaborator_on_handoff env0 c3_state (by decide) (by decide)

/-- C4 counterexample. On a state whose last message was authored by the
specialist dr_warren, a routing-collaborator reply naming DrWarren makes the
router route to DrWarrenNode, not to the member: the code does not enforce
turn alternation against the collaborator, so a second consecutive
specialist turn is possible. -/
theorem turn_alternation_not_enforced :
    c4_state.chat_history.getLast?.map ChatMsg.role = some "dr_warren"
    ∧ (decide_next_node env0 c4_state (some "DrWarren")).2 = "DrWarrenNode"
    ∧ (decide_next_node env0 c4_state (some "DrWarren")).2 ≠ "Member" :=
  ⟨by decide, by decide, by decide⟩

/-- C4 amended. Turn alternation is delegated to the routing collaborator:
whenever the thread is not ending and the diagnostic cadence is not due, the
router sends the turn to whichever valid specialist key the collaborator
names, even right after a specialist message, and only an erring
collaborator (or one replying Member or an unrecognized value) gives the turn
to the member. -/
theorem router_routes_to_named_specialist (env : Env) (s : ConvState) (k : String)
    (h1 : ¬ s.member_decision = some "END_TURN")
    (h2 : should_schedule_diagnostic s = false)
    (h3 : AGENT_KEYS.contains k = true) :
    ((decide_next_node env s (some k)).2 = (AGENT_NODE_MAP.lookup k).getD "Member"
      ∧ (decide_next_node env s (some k)).2 ≠ "Member")
    ∧ (decide_next_node env s none).2 = "Member" := by
  have h1b : (s.member_decision == some "END_TURN") = false := by
    simpa using h1
  have hk : k = "Ruby" ∨ k = "DrWarren" ∨ k = "Advik" ∨ k = "Carla"
      ∨ k = "Rachel" ∨ k = "Neel" ∨ k = "TestPanel" := by
    simpa [AGENT_KEYS] using h3
  unfold decide_next_node
  rcases hk with h | h | h | h | h | h | h <;>
    subst h <;> simp [h1b, h2, AGENT_KEYS, AGENT_NODE_MAP] <;> decide

/-- C4 witness: right after the dr_warren message the router routes back to
DrWarrenNode when the collaborator names DrWarren, and to the member when
the collaborator errs. -/
theorem router_routes_to_named_specialist_witness :
    (((decide_next_node env0 c4_state (some "DrWarren")).2
        = (AGENT_NODE_MAP.lookup "DrWarren").getD "Member"
      ∧ (decide_next_node env0 c4_state (some "DrWarren")).2 ≠ "Member")
    ∧ (decide_next_node env0 c4_state none).2 = "Member") :=
  router_routes_to_named_specialist env0 c4_state "DrWarren" (by decide)
    (by decide) (by decide)

theorem truthyStr_iff (o : Option String) :
    truthyStr o = true ↔ (o ≠ none ∧ o ≠ some "") := by
  cases o with
  | none => simp [truthyStr]
  | some a =>
    simp only [truthyStr, Bool.not_eq_true', ne_eq, reduceCtorEq, not_false_iff,
      Option.some_inj, true_and]
    rw [← String.isEmpty_iff a]
    simp

/-- C5. Decision-point detection holds exactly when at least two of the four
indicators hold on the last agent response: non-empty recommendations,
non-empty medications, non-empty tests, and a present non-empty analysis
with confidence above one half. Moreover, without a detected decision point
the router's decision-tracking step changes nothing (no chain is created),
and with one detected and no active chain it creates exactly one chain. -/
theorem detect_decision_point_two_of_four :
    (∀ (s : ConvState) (last : AgentOutput), s.agent_responses.getLast? = some last →
      (detect_decision_point s = true ↔
        2 ≤ ((if last.recommendations ≠ [] then 1 else 0)
           + (if last.medications ≠ [] then 1 else 0)
           + (if last.tests ≠ [] then 1 else 0)
           + (if last.analysis ≠ none ∧ last.analysis ≠ some ""
                ∧ last.confidence.getD 0 > mkRat 1 2 then 1 else 0))))
    ∧ (∀ (env : Env) (s : ConvState), detect_decision_point s = false →
        decision_tracking_step env s = s)
    ∧ (∀ (env : Env) (s : ConvState), detect_decision_point s = true →
        s.active_decision_chains = [] →
        (decision_tracking_step env s).active_decision_chains.length = 1) := by
  refine ⟨?_, ?_, ?_⟩
  · intro s last h
    have e1 : (!last.recommendations.isEmpty).toNat
        = (if last.recommendations ≠ [] then 1 else 0) := by
      cases last.recommendations <;> simp
    have e2 : (!last.medications.isEmpty).toNat
        = (if last.medications ≠ [] then 1 else 0) := by
      cases last.medications <;> simp
    have e3 : (!last.tests.isEmpty).toNat
        = (if last.tests ≠ [] then 1 else 0) := by
      cases last.tests <;> simp
    have e4 : (truthyStr last.analysis
          && decide (last.confidence.getD 0 > mkRat 1 2)).toNat
        = (if last.analysis ≠ none ∧ last.analysis ≠ some ""
             ∧ last.confidence.getD 0 > mkRat 1 2 then 1 else 0) := by
      by_cases hc : last.confidence.getD 0 > mkRat 1 2
      · by_cases ht : truthyStr last.analysis = true
        · obtain ⟨ht1, ht2⟩ := (truthyStr_iff _).mp ht
          simp [ht, hc, ht1, ht2]
        · have hn := (not_iff_not.mpr (truthyStr_iff last.analysis)).mp ht
          rw [Bool.not_eq_true] at ht
          simp only [ht, Bool.false_and, Bool.toNat_false]
          rw [not_and_or] at hn
          rcases hn with hn | hn
          · rw [not_not] at hn; simp [hn]
          · rw [not_not] at hn; simp [hn]
      · simp [hc]
    unfold detect_decision_point
    rw [h]
    simp only [ge_iff_le, decide_eq_true_eq]
    rw [e1, e2, e3, e4]
  · intro env s hd
    unfold decision_tracking_step
    simp [hd]
  · intro env s hd h0
    cases hl : s.agent_responses.getLast? with
    | none =>
      unfold detect_decision_point at hd
      rw [hl] at hd
      simp at hd
    | some last =>
      unfold decision_tracking_step
      simp only [hd, if_true, hl, h0]
      simp [create_decision_chain, add_agent_analysis, extractFirst, h0]

/-- C5 witness: a response with only recommendations does not trigger
tracking (the step is the identity, so no chain is created), while one with
recommendations plus tests on a state with no active chain creates exactly
one chain. -/
theorem detect_decision_point_two_of_four_witness :
    decision_tracking_step env0 c5a_state = c5a_state
    ∧ (decision_tracking_step env0 c5b_state).active_decision_chains.length = 1 :=
  ⟨detect_decision_point_two_of_four.2.1 env0 c5a_state (by decide),
   detect_decision_point_two_of_four.2.2 env0 c5b_state (by decide) (by decide)⟩

/-- C6. With the member not ending the turn and the diagnostic counter at 12
or more weeks, the router routes to TestPanelNode, resets
weeks_since_last_diagnostic to 0 as a side effect, and never consults the
routing collaborator (the result is the same for every reply); and the
explicit end signal takes precedence: with member_decision = END_TURN the
router returns END unchanged even when the cadence condition holds. -/
theorem cadence_interrupt_routes_to_test_panel :
    (∀ (env : Env) (s : ConvState) (reply : Option String) (counters : SimCounters),
      ¬ s.member_decision = some "END_TURN" →
      s.member_state.simulation_counters = some counters →
      counters.weeks_since_last_diagnostic ≥ 12 →
      (decide_next_node env s reply).2 = "TestPanelNode"
      ∧ (decide_next_node env s reply).1.member_state.simulation_counters.map
          SimCounters.weeks_since_last_diagnostic = some 0
      ∧ ∀ reply2, decide_next_node env s reply = decide_next_node env s reply2)
    ∧ (∀ (env : Env) (s : ConvState) (reply : Option String),
        s.member_decision = some "END_TURN" →
        decide_next_node env s reply = (s, "END")) := by
  constructor
  · intro env s reply counters h1 hc h12
    have h1b : (s.member_decision == some "END_TURN") = false := by simpa using h1
    have hd : should_schedule_diagnostic s = true := by
      unfold should_schedule_diagnostic
      rw [hc]
      simpa using h12
    refine ⟨?_, ?_, ?_⟩
    · simp [decide_next_node, h1b, hd]
    · simp [decide_next_node, h1b, hd, create_diagnostic_event, create_event, hc]
    · intro reply2
      simp [decide_next_node, h1b, hd]
  · intro env s reply h
    simp [decide_next_node, h]

/-- C6 witness: at the concrete threshold state the router returns
TestPanelNode with the counter reset for two different collaborator replies,
and the END_TURN variant of the same state returns END. -/
theorem cadence_interrupt_routes_to_test_panel_witness :
    (decide_next_node env0 c6_state (some "Ruby")).2 = "TestPanelNode"
    ∧ (decide_next_node env0 c6_state (some "Ruby")).1.member_state.simulation_counters.map
        SimCounters.weeks_since_last_diagnostic = some 0
    ∧ decide_next_node env0 c6_state (some "Ruby")
      = decide_next_node env0 c6_state (some "END")
    ∧ decide_next_node env0 c6_end_state (some "Ruby") = (c6_end_state, "END") := by
  have h := cadence_interrupt_routes_to_test_panel.1 env0 c6_state (some "Ruby")
    c6_counters (by decide) rfl (by decide)
  exact ⟨h.1, h.2.1, h.2.2 (some "END"),
    cadence_interrupt_routes_to_test_panel.2 env0 c6_end_state (some "Ruby") rfl⟩

/-- C7. On a state where the given decision id names an active decision
chain (exactly one active chain carries it, and no completed chain does,
which is what uuid-based id generation guarantees), track_outcome returns
true, removes the id from active_decision_chains, adds exactly one chain
with that id and status completed to completed_decision_chains, clears
current_decision_context when it referenced that id, and leaves it unchanged
otherwise. -/
theorem track_outcome_relocates_chain (env : Env) (s : ConvState) (id : String)
    (metrics : List (String × String)) (summary : String) (fu : Bool)
    (rd : Option String)
    (h1 : s.active_decision_chains.countP (fun c => c.decision_id == id) = 1)
    (h2 : s.completed_decision_chains.countP (fun c => c.decision_id == id) = 0) :
    (track_outcome env s id metrics summary fu rd).1 = true
    ∧ (track_outcome env s id metrics summary fu rd).2.active_decision_chains.countP
        (fun c => c.decision_id == id) = 0
    ∧ (track_outcome env s id metrics summary fu rd).2.completed_decision_chains.countP
        (fun c => c.decision_id == id) = 1
    ∧ (track_outcome env s id metrics summary fu rd).2.completed_decision_chains.countP
        (fun c => c.decision_id == id && c.status == "completed") = 1
    ∧ (∀ ctx, s.current_decision_context = some ctx → ctx.decision_id = id →
        (track_outcome env s id metrics summary fu rd).2.current_decision_context = none)
    ∧ ((∀ ctx, s.current_decision_context = some ctx → ¬ ctx.decision_id = id) →
        (track_outcome env s id metrics summary fu rd).2.current_decision_context
          = s.current_decision_context) := by
  cases he : extractFirst (fun c => c.decision_id == id) s.active_decision_chains with
  | none =>
    exfalso
    have hz : s.active_decision_chains.countP (fun c => c.decision_id == id) = 0 := by
      rw [List.countP_eq_zero]
      intro a ha
      simpa using extractFirst_none he a ha
    rw [hz] at h1
    exact one_ne_zero h1.symm
  | some triple =>
    obtain ⟨pre, c, suf⟩ := triple
    obtain ⟨hl, hpc, hpre⟩ := extractFirst_some he
    have hpre0 : pre.countP (fun c => c.decision_id == id) = 0 := by
      rw [List.countP_eq_zero]
      intro a ha
      simpa using hpre a ha
    have hsuf0 : suf.countP (fun c => c.decision_id == id) = 0 := by
      rw [hl, List.countP_append, List.countP_cons, hpre0] at h1
      simp [hpc] at h1
      rw [List.countP_eq_zero]
      intro a ha
      simpa using h1 a ha
    unfold track_outcome
    rw [he]
    refine ⟨rfl, ?_, ?_, ?_, ?_, ?_⟩
    · simp only [List.countP_append, hpre0, hsuf0]
    · simp only [List.countP_append, h2, List.countP_cons, List.countP_nil]
      simpa using hpc
    · simp only [List.countP_append, List.countP_cons, List.countP_nil]
      have hz : s.completed_decision_chains.countP
          (fun c => c.decision_id == id && c.status == "completed") = 0 := by
        rw [List.countP_eq_zero]
        intro a ha
        have hne := (List.countP_eq_zero.mp h2) a ha
        intro hcon
        rw [Bool.and_eq_true] at hcon
        exact hne hcon.1
      rw [hz]
      simpa using hpc
    · intro ctx hctx hid
      simp only [hctx]
      have : (ctx.decision_id == id) = true := by simpa using hid
      simp [this]
    · intro hctx
      cases hcc : s.current_decision_context with
      | none => simp
      | some ctx =>
        have : (ctx.decision_id == id) = false := by
          simpa using hctx ctx hcc
        simp [this]

/-- C7 witness: tracking the outcome of the single active chain of the
concrete state relocates it and clears the context that pointed at it. -/
theorem track_outcome_relocates_chain_witness :
    (track_outcome env0 c7_state "DC_W1_a1b2c3d4" [] "done" false none).1 = true
    ∧ (track_outcome env0 c7_state "DC_W1_a1b2c3d4" [] "done" false
        none).2.active_decision_chains.countP
        (fun c => c.decision_id == "DC_W1_a1b2c3d4") = 0
    ∧ (track_outcome env0 c7_state "DC_W1_a1b2c3d4" [] "done" false
        none).2.completed_decision_chains.countP
        (fun c => c.decision_id == "DC_W1_a1b2c3d4" && c.status == "completed") = 1
    ∧ (track_outcome env0 c7_state "DC_W1_a1b2c3d4" [] "done" false
        none).2.current_decision_context = none := by
  have h := track_outcome_relocates_chain env0 c7_state "DC_W1_a1b2c3d4" [] "done"
    false none (by decide) (by decide)
  exact ⟨h.1, h.2.1, h.2.2.2.1, h.2.2.2.2.1 _ rfl rfl⟩

theorem eventIds_update_perm (s : ConvState) (id st : String) :
    List.Perm (eventIds (update_event_status s id st).2) (eventIds s) := by
  unfold update_event_status
  cases he : extractFirst (fun e => e.event_id == id) s.active_events with
  | none => exact List.Perm.refl _
  | some triple =>
    obtain ⟨pre, e, suf⟩ := triple
    obtain ⟨hl, hpe, hpre⟩ := extractFirst_some he
    by_cases hterm : st = "completed" ∨ st = "cancelled"
    · simp only [hterm, if_true]
      rw [List.perm_iff_count]
      intro a
      simp only [eventIds, activeEventIds, completedEventIds, hl, List.map_append,
        List.count_append, List.map_cons, List.count_cons, List.map_nil,
        List.count_nil]
      omega
    · simp only [hterm, if_false]
      rw [List.perm_iff_count]
      intro a
      simp only [eventIds, activeEventIds, completedEventIds, hl, List.map_append,
        List.count_append, List.map_cons, List.count_cons, List.map_nil,
        List.count_nil]
      omega

theorem eventIds_create_perm (env : Env) (s : ConvState)
    (t d r p c : String) (m : List (String × String)) :
    List.Perm (eventIds (create_event env s t d r p c m).2)
      (generate_event_id s.week_index s.thread_index t env.uuid :: eventIds s) := by
  unfold create_event
  rw [List.perm_iff_count]
  intro a
  simp only [eventIds, activeEventIds, completedEventIds, List.map_append,
    List.count_append, List.map_cons, List.count_cons, List.map_nil,
    List.count_nil]
  omega

theorem eventInv_step (s : ConvState) (op : EventOp) (hInv : EventInv s)
    (hfresh : match op with
      | .create env t _ _ _ _ _ =>
        generate_event_id s.week_index s.thread_index t env.uuid ∉ eventIds s
      | .transition _ _ => True) :
    EventInv (stepEventOp s op) := by
  cases op with
  | create env t d r p c m =>
    have hperm := eventIds_create_perm env s t d r p c m
    unfold EventInv
    simp only [stepEventOp]
    rw [hperm.nodup_iff]
    exact List.Nodup.cons hfresh hInv
  | transition id st =>
    have hperm := eventIds_update_perm s id st
    unfold EventInv
    simp only [stepEventOp]
    rw [hperm.nodup_iff]
    exact hInv

theorem eventIds_mono_step (s : ConvState) (op : EventOp) (id : String)
    (h : id ∈ eventIds s) : id ∈ eventIds (stepEventOp s op) := by
  cases op with
  | create env t d r p c m =>
    have hperm := eventIds_create_perm env s t d r p c m
    simp only [stepEventOp]
    rw [hperm.mem_iff]
    exact List.mem_cons_of_mem _ h
  | transition tid st =>
    have hperm := eventIds_update_perm s tid st
    simp only [stepEventOp]
    rw [hperm.mem_iff]
    exact h

theorem eventInv_exclusive (s : ConvState) (hInv : EventInv s) (id : String) :
    ¬ (id ∈ activeEventIds s ∧ id ∈ completedEventIds s) := by
  intro ⟨ha, hc⟩
  exact (List.disjoint_of_nodup_append hInv) ha hc

/-- C8. The event-status transition returns false and changes nothing when
the id is not among the active events; on a found id, a terminal status
(completed or cancelled) removes the id from the active collection and puts
it into the completed one, while a non-terminal status keeps it active and
leaves the completed collection untouched; and along any sequence of create
and transition operations (with uuid-fresh create ids) starting from a state
satisfying the lifecycle invariant, the invariant is preserved, no id is
ever in both collections, and no id is ever lost. -/
theorem event_id_in_exactly_one_collection :
    (∀ (s : ConvState) (id st : String),
      (∀ e ∈ s.active_events, ¬ e.event_id = id) →
      update_event_status s id st = (false, s))
    ∧ (∀ (s : ConvState) (id st : String),
        (st = "completed" ∨ st = "cancelled") →
        (update_event_status s id st).1 = true → EventInv s →
        id ∉ activeEventIds (update_event_status s id st).2
        ∧ id ∈ completedEventIds (update_event_status s id st).2)
    ∧ (∀ (s : ConvState) (id st : String),
        ¬ (st = "completed" ∨ st = "cancelled") →
        (update_event_status s id st).1 = true → EventInv s →
        id ∈ activeEventIds (update_event_status s id st).2
        ∧ id ∉ completedEventIds (update_event_status s id st).2
        ∧ (update_event_status s id st).2.completed_events = s.completed_events)
    ∧ (∀ (s : ConvState) (ops : List EventOp), EventInv s → FreshEventOps s ops →
        EventInv (runEventOps s ops)
        ∧ (∀ id, ¬ (id ∈ activeEventIds (runEventOps s ops)
            ∧ id ∈ completedEventIds (runEventOps s ops)))
        ∧ (∀ id, id ∈ eventIds s → id ∈ eventIds (runEventOps s ops))) := by
  have hmain : ∀ (s : ConvState) (id st : String) (pre suf : List EventObj)
      (e : EventObj),
      extractFirst (fun e => e.event_id == id) s.active_events = some (pre, e, suf) →
      EventInv s →
      e.event_id = id ∧ id ∉ pre.map EventObj.event_id
      ∧ id ∉ suf.map EventObj.event_id ∧ id ∉ completedEventIds s := by
    intro s id st pre suf e he hInv
    obtain ⟨hl, hpe, hpre⟩ := extractFirst_some he
    have heid : e.event_id = id := by simpa using hpe
    have hInv2 : ((pre.map EventObj.event_id ++ e.event_id :: suf.map EventObj.event_id)
        ++ completedEventIds s).Nodup := by
      have : activeEventIds s
          = pre.map EventObj.event_id ++ e.event_id :: suf.map EventObj.event_id := by
        simp [activeEventIds, hl]
      rw [EventInv, eventIds, this] at hInv
      exact hInv
    rw [List.append_assoc, List.cons_append, List.nodup_middle] at hInv2
    have hnot := hInv2.not_mem
    rw [heid] at hnot
    simp only [List.mem_append] at hnot
    push_neg at hnot
    refine ⟨heid, ?_, hnot.2.1, hnot.2.2⟩
    intro hc
    rcases List.mem_map.mp hc with ⟨y, hy, hyid⟩
    have := hpre y hy
    rw [hyid] at this
    simp at this
  refine ⟨?_, ?_, ?_, ?_⟩
  · intro s id st h
    unfold update_event_status
    cases he : extractFirst (fun e => e.event_id == id) s.active_events with
    | none => rfl
    | some triple =>
      obtain ⟨pre, e, suf⟩ := triple
      obtain ⟨hl, hpe, _⟩ := extractFirst_some he
      exfalso
      have hmem : e ∈ s.active_events := by rw [hl]; simp
      exact h e hmem (by simpa using hpe)
  · intro s id st hterm hfound hInv
    revert hfound
    unfold update_event_status
    cases he : extractFirst (fun e => e.event_id == id) s.active_events with
    | none => intro hfound; simp at hfound
    | some triple =>
      obtain ⟨pre, e, suf⟩ := triple
      intro _
      obtain ⟨heid, hpre, hsuf, hcomp⟩ := hmain s id st pre suf e he hInv
      simp only [hterm, if_true]
      constructor
      · simp only [activeEventIds, List.map_append, List.mem_append]
        push_neg
        exact ⟨hpre, hsuf⟩
      · simp only [completedEventIds, List.map_append, List.mem_append]
        right
        simp [heid]
  · intro s id st hterm hfound hInv
    revert hfound
    unfold update_event_status
    cases he : extractFirst (fun e => e.event_id == id) s.active_events with
    | none => intro hfound; simp at hfound
    | some triple =>
      obtain ⟨pre, e, suf⟩ := triple
      intro _
      obtain ⟨heid, hpre, hsuf, hcomp⟩ := hmain s id st pre suf e he hInv
      simp only [hterm, if_false]
      refine ⟨?_, hcomp, by trivial⟩
      simp only [activeEventIds, List.map_append, List.mem_append]
      left; right
      simp [heid]
  · intro s ops
    induction ops generalizing s with
    | nil =>
      intro hInv _
      exact ⟨hInv, fun id => eventInv_exclusive s hInv id, fun id h => h⟩
    | cons op ops ih =>
      intro hInv hfresh
      obtain ⟨hf, hrest⟩ := hfresh
      have hInv1 : EventInv (stepEventOp s op) := eventInv_step s op hInv hf
      have hrun : runEventOps s (op :: ops) = runEventOps (stepEventOp s op) ops := by
        simp [runEventOps]
      obtain ⟨ha, hb, hc⟩ := ih (stepEventOp s op) hInv1 hrest
      rw [hrun]
      exact ⟨ha, hb, fun id h => hc id (eventIds_mono_step s op id h)⟩

/-- C8 witness: a transition on a missing id fails and changes nothing; the
terminal transition of the concrete scheduled event removes its id from the
active ids and adds it to the completed ids; the non-terminal transition
kept it active; and the create / schedule / complete sequence from the empty
registry preserves the lifecycle invariant. -/
theorem event_id_in_exactly_one_collection_witness :
    update_event_status baseState "missing" "completed" = (false, baseState)
    ∧ (c8_id ∉ activeEventIds (update_event_status c8_state2 c8_id "completed").2
      ∧ c8_id ∈ completedEventIds (update_event_status c8_state2 c8_id "completed").2)
    ∧ (c8_id ∈ activeEventIds (update_event_status c8_state1 c8_id "scheduled").2
      ∧ c8_id ∉ completedEventIds (update_event_status c8_state1 c8_id "scheduled").2)
    ∧ EventInv (runEventOps baseState c8_ops) :=
  ⟨event_id_in_exactly_one_collection.1 baseState "missing" "completed" (by decide),
   event_id_in_exactly_one_collection.2.1 c8_state2 c8_id "completed"
     (Or.inl rfl) (by decide) (by unfold EventInv; decide),
   ⟨(event_id_in_exactly_one_collection.2.2.1 c8_state1 c8_id "scheduled"
       (by decide) (by decide) (by unfold EventInv; decide)).1,
    (event_id_in_exactly_one_collection.2.2.1 c8_state1 c8_id "scheduled"
       (by decide) (by decide) (by unfold EventInv; decide)).2.1⟩,
   (event_id_in_exactly_one_collection.2.2.2 baseState c8_ops (by unfold EventInv; decide)
     ⟨by decide, trivial, trivial, trivial⟩).1⟩

theorem append_message_step (s : ConvState) (q : MsgReq) (m : ChatMsg)
    (hm : s.chat_history.getLast? = some m) (hmit : 0 < s.message_in_thread)
    (hr : ValidRand q.rand) :
    ∃ m2 : ChatMsg,
      (applyAppend s q).chat_history = s.chat_history ++ [m2]
      ∧ m.timestamp < m2.timestamp
      ∧ (applyAppend s q).chat_history.getLast? = some m2
      ∧ 0 < (applyAppend s q).message_in_thread := by
  obtain ⟨h1, h2, h3, h4⟩ := hr
  have hpos : (0 : Rat) < 60 * (q.rand.dh : Rat) + (q.rand.dm : Rat) := by
    have e1 : (0 : Rat) ≤ (q.rand.dh : Rat) := by exact_mod_cast h1
    have e2 : (2 : Rat) ≤ (q.rand.dm : Rat) := by exact_mod_cast h3
    linarith
  unfold applyAppend append_message
  rw [hm]
  simp only [hmit, if_pos]
  refine ⟨_, rfl, ?_, ?_, ?_⟩
  · simp only [ChatMsg.timestamp]
    linarith
  · exact List.getLast?_concat _
  · exact Nat.succ_pos _

theorem runAppends_chain (qs : List MsgReq) : ∀ (s : ConvState) (m : ChatMsg),
    (∀ q ∈ qs, ValidRand q.rand) →
    0 < s.message_in_thread →
    s.chat_history.getLast? = some m →
    ∃ tail, (runAppends s qs).chat_history = s.chat_history ++ tail
      ∧ List.Chain (fun a b => a < b) m.timestamp (tail.map ChatMsg.timestamp) := by
  induction qs with
  | nil =>
    intro s m _ _ _
    exact ⟨[], by simp [runAppends], List.Chain.nil⟩
  | cons q qs ih =>
    intro s m hv hmit hlast
    obtain ⟨m2, hch, hlt, hlast2, hmit2⟩ :=
      append_message_step s q m hlast hmit (hv q (by simp))
    obtain ⟨tail, htail, hchain⟩ :=
      ih (applyAppend s q) m2 (fun p hp => hv p (by simp [hp])) hmit2 hlast2
    refine ⟨m2 :: tail, ?_, ?_⟩
    · have : runAppends s (q :: qs) = runAppends (applyAppend s q) qs := by
        simp [runAppends]
      rw [this, htail, hch, List.append_assoc]
      rfl
    · exact List.Chain.cons hlt (by simpa [hch] using hchain)

/-- C9. Within every thread, message timestamps are strictly increasing:
starting from any state whose per-thread message counter was just reset to 0
(main.py does this at every thread start), any sequence of append_message
calls whose random deltas lie in the randint(0,1)-hour and
randint(2,30)-minute ranges produces a block of new messages with strictly
increasing timestamps, because every non-initial timestamp is the previous
message timestamp plus the strictly positive delta. -/
theorem thread_timestamps_strictly_increasing (s : ConvState) (qs : List MsgReq)
    (h0 : s.message_in_thread = 0)
    (hv : ∀ q ∈ qs, ValidRand q.rand) :
    List.Chain' (fun a b => a < b)
      (((runAppends s qs).chat_history.drop s.chat_history.length).map
        ChatMsg.timestamp) := by
  cases qs with
  | nil => simp [runAppends]
  | cons q qs =>
    have hrun : runAppends s (q :: qs) = runAppends (applyAppend s q) qs := by
      simp [runAppends]
    have hch1 : ∃ m1 : ChatMsg, (applyAppend s q).chat_history
        = s.chat_history ++ [m1]
        ∧ (applyAppend s q).chat_history.getLast? = some m1
        ∧ 0 < (applyAppend s q).message_in_thread := by
      unfold applyAppend append_message
      cases hl : s.chat_history.getLast? with
      | none => exact ⟨_, rfl, List.getLast?_concat _, Nat.succ_pos _⟩
      | some last =>
        rw [h0]
        simp only [Nat.lt_irrefl, if_false]
        exact ⟨_, rfl, List.getLast?_concat _, Nat.succ_pos _⟩
    obtain ⟨m1, hch, hlast1, hmit1⟩ := hch1
    obtain ⟨tail, htail, hchain⟩ :=
      runAppends_chain qs (applyAppend s q) m1 (fun p hp => hv p (by simp [hp]))
        hmit1 hlast1
    rw [hrun, htail, hch, List.append_assoc]
    rw [List.drop_left]
    simpa using hchain

/-- C9 witness: a concrete three-message thread from the base state (counter
0) has strictly increasing timestamps. -/
theorem thread_timestamps_strictly_increasing_witness :
    List.Chain' (fun a b => a < b)
      (((runAppends baseState c9_qs).chat_history.drop
          baseState.chat_history.length).map ChatMsg.timestamp) :=
  thread_timestamps_strictly_increasing baseState c9_qs rfl
    (by unfold ValidRand; decide)

/-- C10. When the member-simulation collaborator output cannot be parsed as
JSON, member_node is total (the except branch handles it): it uses the raw
collaborator text as the member message, appends that message (role member,
with the END_TURN decision in its meta) to the chat history, stores it in
the message field, and sets member_decision to END_TURN — after which the
router returns END for every collaborator behaviour, so the unparseable
member turn always ends the current thread. -/
theorem member_node_parse_failure_ends_turn (s : ConvState) (content : String)
    (r : AppendRand) :
    (member_node s none content r).member_decision = some "END_TURN"
    ∧ (member_node s none content r).message = content
    ∧ (∃ m : ChatMsg, (member_node s none content r).chat_history
        = s.chat_history ++ [m]
        ∧ m.text = content ∧ m.role = "member" ∧ m.agent = some "member"
        ∧ m.meta = [("decision", "END_TURN")])
    ∧ (∀ (env : Env) (reply : Option String),
        decide_next_node env (member_node s none content r) reply
          = (member_node s none content r, "END")) := by
  have base : (member_node s none content r).member_decision = some "END_TURN"
      ∧ (member_node s none content r).message = content
      ∧ ∃ m : ChatMsg, (member_node s none content r).chat_history
          = s.chat_history ++ [m]
          ∧ m.text = content ∧ m.role = "member" ∧ m.agent = some "member"
          ∧ m.meta = [("decision", "END_TURN")] := by
    by_cases hce : s.chat_history.isEmpty
    · simp only [member_node, hce, if_true, append_message]
      exact ⟨by trivial, by trivial, _, by trivial, by trivial, by trivial, by trivial, by trivial⟩
    · by_cases hnt : s.new_thread_required.getD false
      · simp only [member_node, hce, hnt, if_false, if_true, append_message]
        exact ⟨by trivial, by trivial, _, by trivial, by trivial, by trivial, by trivial, by trivial⟩
      · simp only [member_node, hce, hnt, if_false, append_message]
        exact ⟨by trivial, by trivial, _, by trivial, by trivial, by trivial, by trivial, by trivial⟩
  refine ⟨base.1, base.2.1, base.2.2, ?_⟩
  intro env reply
  have hend : ((member_node s none content r).member_decision
      == some "END_TURN") = true := by
    rw [base.1]
    rfl
  unfold decide_next_node
  rw [hend]
  rfl

end Elyx
